import Mathlib

/-!
Verification of the USITC trade-data reconciliation pipeline.

This file gives a shallow embedding of the core data-shaping logic of the
repository, translated from the two scripts that hold it:

* `04b_usitc_data_local.py` — monthly-file validation, quantity
  unit-of-measure conflict resolution, and the ascending/descending batch
  consolidation;
* `04c_usitc_data_local_crosscheck.py` — the canonical-table comparator and
  the tolerance-based discrepancy report.

Pandas DataFrames are modelled as Lists of record structures; numeric cell
values (floats after a fillna-with-0 pass) are modelled as `Rat`; a cell that
can be NaN/missing is modelled as `Option Rat` with `none` for NaN.
Row order inside a List mirrors the row order of the corresponding frame.
-/

set_option maxHeartbeats 1600000

attribute [local semireducible] Rat.add Rat.sub Rat.mul Rat.inv

/-- One data row of a quantity-variable monthly sheet, after the value
column has been coerced to numeric with NaN replaced by 0
(`04b_usitc_data_local.py`, line 169). `unit` is the Quantity Description
column; `value` is the month value column. -/
structure QRow where
  country : String
  hts : String
  unit : String
  value : Rat
deriving DecidableEq, Repr

/-- Translation of `resolve_quantity_conflicts` (`04b_usitc_data_local.py`,
lines 69-119): a group of length 1 passes through; otherwise the candidate
pool is the rows with value strictly greater than 0, falling back to the
whole group when that pool is empty, and from the pool the script takes the
first row with unit "number", else the first with unit "kilograms", else the
first row of the pool (`.iloc[0:1]`). The logging of discarded rows is a
print side effect and is not modelled. -/
def resolve_quantity_conflicts (group : List QRow) : List QRow :=
  if group.length = 1 then group
  else
    let non_zero_rows := group.filter (fun r => 0 < r.value)
    let pool_to_search := if non_zero_rows.isEmpty then group else non_zero_rows
    let number_row := pool_to_search.filter (fun r => r.unit = "number")
    if ¬ number_row.isEmpty then number_row.take 1
    else
      let kg_row := pool_to_search.filter (fun r => r.unit = "kilograms")
      if ¬ kg_row.isEmpty then kg_row.take 1
      else pool_to_search.take 1

/-- The entity key of a quantity row: the KEY_COLUMNS pair
(Country, HTS Number). -/
def rowKey (r : QRow) : String × String := (r.country, r.hts)

/-- The rows of a frame that carry entity key `k` (a groupby group). -/
def groupOf (df : List QRow) (k : String × String) : List QRow :=
  df.filter (fun r => rowKey r = k)

/-- The distinct Unit-of-Measure values of a list of rows; its length is
pandas `nunique` of the Quantity Description column. -/
def unitsOf (rows : List QRow) : List String :=
  (rows.map QRow.unit).dedup

/-- A key is a conflict key when its group has strictly more than one
distinct unit (`unit_counts[unit_counts > 1]`,
`04b_usitc_data_local.py` line 173). -/
def isConflictKey (df : List QRow) (k : String × String) : Bool :=
  decide (1 < (unitsOf (groupOf df k)).length)

/-- The quantity branch of `process_single_file`
(`04b_usitc_data_local.py`, lines 171-185): rows whose key is not a conflict
key pass through untouched; each conflict-key group is replaced by the output
of `resolve_quantity_conflicts`; the two parts are concatenated. -/
def processQuantityRows (df : List QRow) : List QRow :=
  let df_no_conflicts := df.filter (fun r => ¬ isConflictKey df (rowKey r))
  let conflict_keys := ((df.map rowKey).dedup).filter (fun k => isConflictKey df k)
  let df_resolved := conflict_keys.flatMap (fun k => resolve_quantity_conflicts (groupOf df k))
  df_no_conflicts ++ df_resolved

/-- The conflict-resolution policy as the spec sentence words it (claim C1):
the candidate pool is the non-zero-value rows of the group, with the full
group used only when every row value is zero; within the pool the first
"number" row is chosen, else the first "kilograms" row, else the first row
of the pool. Stated from the spec text for comparison with
`resolve_quantity_conflicts`. -/
def specResolveQuantity (group : List QRow) : List QRow :=
  if group.length = 1 then group
  else
    let pool := if group.all (fun r => r.value = 0) then group
                else group.filter (fun r => r.value ≠ 0)
    match pool.find? (fun r => r.unit = "number") with
    | some r => [r]
    | none =>
      match pool.find? (fun r => r.unit = "kilograms") with
      | some r => [r]
      | none => pool.take 1

/-- The unit-priority selection of the spec: the first "number" row of the
pool if any, else the first "kilograms" row, else the first row of the
pool. -/
def unitPriorityPick (pool : List QRow) : Option QRow :=
  match pool.find? (fun r => r.unit = "number") with
  | some r => some r
  | none =>
    match pool.find? (fun r => r.unit = "kilograms") with
    | some r => some r
    | none => pool.head?

/-- The conflict-resolution policy with the candidate pool amended to match
the code: the pool is the rows with strictly positive value, and the full
group is used only when no row value is positive; within the pool the first
"number" row is chosen, else the first "kilograms" row, else the first row
of the pool. -/
def amendedResolveChoice (group : List QRow) : Option QRow :=
  let pool := if group.all (fun r => ¬ 0 < r.value) then group
              else group.filter (fun r => 0 < r.value)
  unitPriorityPick pool

/-- Metadata extracted from one monthly file: `int(metadata.get('Years', 0))`
and `int(metadata.get('Start Month', 0))` (`04b_usitc_data_local.py`,
lines 51-52); 0 stands for an absent metadata entry. -/
structure FileMeta where
  year : Nat
  month : Nat
deriving DecidableEq, Repr

/-- Linear index of a (year, month) pair, month counted from 1. -/
def monthIndex (ym : Nat × Nat) : Nat := ym.1 * 12 + (ym.2 - 1)

/-- The (year, month) pair of a linear month index. -/
def monthOfIndex (i : Nat) : Nat × Nat := (i / 12, i % 12 + 1)

/-- The expected contiguous month range, the model of
`pd.date_range(start, end, freq='MS')` on first-of-month bounds
(`04b_usitc_data_local.py`, lines 59-60): every month start from the start
bound to the end bound inclusive, in chronological order. -/
def monthRange (s e : Nat × Nat) : List (Nat × Nat) :=
  (List.range (monthIndex e + 1 - monthIndex s)).map (fun d => monthOfIndex (monthIndex s + d))

/-- The set `found_months` of `validate_monthly_files`
(`04b_usitc_data_local.py`, lines 47-54): the distinct (year, month) pairs
of the files whose year and month metadata are both present (nonzero),
modelled as a duplicate-free list. -/
def foundMonths (files : List FileMeta) : List (Nat × Nat) :=
  ((files.filter (fun f => f.year ≠ 0 ∧ f.month ≠ 0)).map (fun f => (f.year, f.month))).dedup

/-- The two fatal validation errors raised by `validate_monthly_files`; each
carries the offending folder name and the data printed in its message. -/
inductive ValidationError where
  | duplicates (folder : String) (expectedCount foundCount : Nat)
  | missing (folder : String) (months : List (Nat × Nat))
deriving DecidableEq, Repr

/-- Translation of `validate_monthly_files` (`04b_usitc_data_local.py`,
lines 41-66), with the expected range passed as the (year, month) bounds of
the EXPECTED_START_DATE/EXPECTED_END_DATE configuration: first a ValueError
when the number of distinct found months differs from the number of files,
then a ValueError listing the expected months that were not found (in sorted
order), else success (`none`). -/
def validate_monthly_files (files : List FileMeta) (folder : String) (rs re : Nat × Nat) :
    Option ValidationError :=
  let found := foundMonths files
  if found.length ≠ files.length then
    some (.duplicates folder files.length found.length)
  else
    let missing := (monthRange rs re).filter (fun ym => ¬ ym ∈ found)
    if missing.isEmpty then none else some (.missing folder missing)

/-- One row of a merged wide table for one batch: the entity key columns plus
the month value columns, a missing (NaN) cell being `none`. -/
structure WideRow where
  country : String
  hts : String
  cells : List (Option Rat)
deriving DecidableEq, Repr

/-- The entity key of a wide row. -/
def wideKey (r : WideRow) : String × String := (r.country, r.hts)

/-- The rows of a stacked wide table that carry entity key `k`. -/
def wideGroup (df : List WideRow) (k : String × String) : List WideRow :=
  df.filter (fun r => wideKey r = k)

/-- The pandas `GroupBy.first` cell rule: the first non-NA value of a column
within a group (NA only when the whole column of the group is NA). -/
def firstNonNull (l : List (Option Rat)) : Option Rat :=
  (l.filterMap id).head?

/-- Column `i` of the group of key `k`, as a list in stacked row order. -/
def columnOf (stacked : List WideRow) (k : String × String) (i : Nat) : List (Option Rat) :=
  (wideGroup stacked k).map (fun r => r.cells.getD i none)

/-- Cell `i` of the consolidated row for key `k`. -/
def consolidatedCell (stacked : List WideRow) (k : String × String) (i : Nat) : Option Rat :=
  firstNonNull (columnOf stacked k i)

/-- Translation of the consolidation step
`stacked_df.groupby(KEY_COLUMNS, as_index=False).first()`
(`04b_usitc_data_local.py`, lines 286-287) over the stack of the ascending
batch rows followed by the descending batch rows: one row per distinct
entity key, each cell holding the first non-NA value of its column within
the group. `ncols` is the number of month value columns of the stacked
table. Pandas emits the groups sorted by key; key order is not relied on
here, only per-key content. -/
def consolidateTable (stacked : List WideRow) (ncols : Nat) : List WideRow :=
  ((stacked.map wideKey).dedup).map
    (fun k => ⟨k.1, k.2, (List.range ncols).map (fun i => consolidatedCell stacked k i)⟩)

/-- The canonical comparison key (Country, Year, Month, Variable). -/
structure CKey where
  country : String
  year : Int
  month : String
  var : String
deriving DecidableEq, Repr

/-- The pandas merge indicator column `_merge`. -/
inductive MergeTag where
  | both
  | left_only
  | right_only
deriving DecidableEq, Repr

/-- One row of the comparison frame built by `compare_datasets`, after the
fillna(0) pass on the two value columns
(`04c_usitc_data_local_crosscheck.py`, lines 246-256). -/
structure CompRow where
  key : CKey
  officialValue : Rat
  yourValue : Rat
  tag : MergeTag
deriving DecidableEq, Repr

/-- Value of a canonical long table at key `k`, when a row for `k` exists.
Canonical tables have one row per key (they come out of a groupby-sum). -/
def lookupValue (tbl : List (CKey × Rat)) (k : CKey) : Option Rat :=
  (tbl.find? (fun p => p.1 = k)).map Prod.snd

/-- The comparison row for key `k` of the outer merge of
`compare_datasets` with `indicator=True` followed by the fillna(0) of both
value columns (`04c_usitc_data_local_crosscheck.py`, lines 246-256): the
tag records which side had a row, a missing side contributes value 0. -/
def compareRow (official your : List (CKey × Rat)) (k : CKey) : Option CompRow :=
  match lookupValue official k, lookupValue your k with
  | some o, some y => some ⟨k, o, y, .both⟩
  | some o, none => some ⟨k, o, 0, .left_only⟩
  | none, some y => some ⟨k, 0, y, .right_only⟩
  | none, none => none

/-- Translation of `compare_datasets`
(`04c_usitc_data_local_crosscheck.py`, lines 217-274) on two canonical long
tables with unique keys: one comparison row per key of either side. Pandas
emits left keys before right-only keys; row order is not relied on here. -/
def compare_datasets (official your : List (CKey × Rat)) : List CompRow :=
  ((official.map Prod.fst ++ your.map Prod.fst).dedup).filterMap (compareRow official your)

/-- The Difference column: `Your_Value - Official_Value`
(`04c_usitc_data_local_crosscheck.py`, line 259). -/
def difference (r : CompRow) : Rat := r.yourValue - r.officialValue

/-- The Python builtin `abs` on a numeric value. -/
def ratAbs (x : Rat) : Rat := if x < 0 then -x else x

/-- The Abs_Difference column (`04c_usitc_data_local_crosscheck.py`,
line 260). -/
def absDifference (r : CompRow) : Rat := ratAbs (difference r)

/-- `Official_Value.replace(0, float('nan'))`: a float that is NaN exactly
when the official value is 0, modelled as an Option. -/
def replaceZeroWithNaN (v : Rat) : Option Rat := if v = 0 then none else some v

/-- Float division with NaN propagation (the divisor is never the real 0
where this is used, only NaN). -/
def nanDiv (a b : Option Rat) : Option Rat :=
  match a, b with
  | some x, some y => some (x / y)
  | _, _ => none

/-- Float multiplication with NaN propagation. -/
def nanMul (a b : Option Rat) : Option Rat :=
  match a, b with
  | some x, some y => some (x * y)
  | _, _ => none

/-- The Percent_Diff column
(`04c_usitc_data_local_crosscheck.py`, lines 261-263):
`Difference / Official_Value.replace(0, nan) * 100`, NaN as `none`. -/
def percentDiff (r : CompRow) : Option Rat :=
  nanMul (nanDiv (some (difference r)) (replaceZeroWithNaN r.officialValue)) (some 100)

/-- The configured comparison tolerance (`TOLERANCE = 1.0`,
`04c_usitc_data_local_crosscheck.py`, line 14). -/
def TOLERANCE : Rat := 1

/-- The discrepancy set of `generate_report`
(`04c_usitc_data_local_crosscheck.py`, line 288):
`comparison_df[abs(comparison_df['Difference']) > TOLERANCE]`. -/
def inconsistencies (rows : List CompRow) : List CompRow :=
  rows.filter (fun r => TOLERANCE < ratAbs (difference r))

/-- Outcome of `generate_report`: the unconditional-success early return, or
the mismatch report over the discrepancy set. -/
inductive ReportOutcome where
  | success
  | mismatches (rows : List CompRow)
deriving DecidableEq, Repr

/-- Control skeleton of `generate_report`
(`04c_usitc_data_local_crosscheck.py`, lines 279-298): when the discrepancy
set is empty the function prints the unconditional success message and
returns; otherwise it reports the discrepancies sorted by Abs_Difference
descending. -/
def generate_report (rows : List CompRow) : ReportOutcome :=
  let inc := inconsistencies rows
  if inc.isEmpty then .success
  else .mismatches (inc.insertionSort (fun a b => absDifference b ≤ absDifference a))

/-- Whether the character list `pat` is an initial segment of `l`. -/
def startsWithChars : List Char → List Char → Bool
  | [], _ => true
  | _ :: _, [] => false
  | a :: as, b :: bs => a = b && startsWithChars as bs

/-- Whether the character list `pat` occurs contiguously inside `l`
(the Python `in` test on strings). -/
def hasSub (pat : List Char) : List Char → Bool
  | [] => pat.isEmpty
  | c :: cs => startsWithChars pat (c :: cs) || hasSub pat cs

/-- The ANCHOR_COLUMN configuration constant
(`04b_usitc_data_local.py`, line 19). -/
def ANCHOR_COLUMN : String := "HTS Number"

/-- The Python `str.strip()`: leading and trailing whitespace removed. -/
def stripChars (l : List Char) : List Char :=
  ((l.dropWhile Char.isWhitespace).reverse.dropWhile Char.isWhitespace).reverse

/-- The Python test `ANCHOR_COLUMN in str(cell).strip()`
(`04b_usitc_data_local.py`, line 151). -/
def cellHasAnchor (cell : String) : Bool :=
  hasSub ANCHOR_COLUMN.toList (stripChars cell.toList)

/-- One raw data sheet, as the grid of its cells rendered to strings. -/
structure RawSheet where
  rows : List (List String)
deriving Repr

/-- The header-row scan of `process_single_file`
(`04b_usitc_data_local.py`, lines 149-153): the index of the first of the
first 10 rows in which some cell contains the anchor, `none` when the scan
fails (`header_row_index == -1`). -/
def header_row_index (s : RawSheet) : Option Nat :=
  (s.rows.take 10).findIdx? (fun row => row.any cellHasAnchor)

/-- Control skeleton of `process_single_file`
(`04b_usitc_data_local.py`, lines 121-209) at the granularity claim C7
needs: the read outcome is the input (an exception during the read being the
`Except.error` case, caught at lines 207-209 and turned into an empty frame);
when the header scan fails the function warns and returns an empty frame
(lines 154-156); otherwise the rows above and including the header are
dropped and processing continues on the rest (line 159; the later
column-shaping steps do not change emptiness). -/
def process_single_file (input : Except String RawSheet) : List (List String) :=
  match input with
  | .error _ => []
  | .ok s =>
    match header_row_index s with
    | none => []
    | some i => s.rows.drop (i + 1)

/-- The batch filter `[df for df in list_of_monthly_dfs if not df.empty]`
(`04b_usitc_data_local.py`, line 272): files that produced an empty frame
are excluded from all downstream merges. -/
def keepNonEmpty (dfs : List (List (List String))) : List (List (List String)) :=
  dfs.filter (fun df => ¬ df.isEmpty)

/-- The swap of the two one-sided provenance tags (claim C8). -/
def swapTag : MergeTag → MergeTag
  | .both => .both
  | .left_only => .right_only
  | .right_only => .left_only

/-- Whether an Option value is the first non-`none` entry of a list of
Option values: for `none`, every entry is `none`; for `some v`, some
position holds `some v` and every earlier position holds `none`. -/
def IsFirstSome (l : List (Option Rat)) : Option Rat → Prop
  | none => ∀ x ∈ l, x = none
  | some v => ∃ n : Nat, l[n]? = some (some v) ∧ ∀ m < n, l[m]? = some none

/-- A conflict group holding a negative-value "number" row next to a
positive "kilograms" row: the input separating the code's positive-value
pool from the spec sentence's non-zero-value pool. -/
def c1group : List QRow :=
  [⟨"Albania", "01012100", "number", -5⟩, ⟨"Albania", "01012100", "kilograms", 3⟩]

/-- The spec example conflict group: a non-zero "number" row next to a
zero "kilograms" row. -/
def c1exampleGroup : List QRow :=
  [⟨"Albania", "01012100", "number", 500⟩, ⟨"Albania", "01012100", "kilograms", 0⟩]

/-- A single-row group, for exercising the pass-through branch. -/
def c9group : List QRow := [⟨"Albania", "01012100", "number", 500⟩]

/-- Two rows sharing one entity key and one unit: a duplicate-key group
that is not a unit conflict. -/
def c10df : List QRow :=
  [⟨"Albania", "01012100", "number", 5⟩, ⟨"Albania", "01012100", "number", 7⟩]

/-- The shared entity key of `c10df`. -/
def c10key : String × String := ("Albania", "01012100")

/-- A batch whose valid distinct months strictly contain the expected
range 2024-01..2024-03: an extra 2024-04 file. -/
def c2extraFiles : List FileMeta := [⟨2024, 1⟩, ⟨2024, 2⟩, ⟨2024, 3⟩, ⟨2024, 4⟩]

/-- A batch supplying only 2024-01 and 2024-03 against the expected range
2024-01..2024-03 (the spec's missing-February example). -/
def c2febFiles : List FileMeta := [⟨2024, 1⟩, ⟨2024, 3⟩]

/-- Ascending-batch merged wide table with one row whose first month cell
is missing. -/
def c3asc : List WideRow := [⟨"India", "01012100", [none, some 1]⟩]

/-- Descending-batch merged wide table with a row for the same key, both
cells present. -/
def c3desc : List WideRow := [⟨"India", "01012100", [some 5, some 2]⟩]

/-- The shared entity key of `c3asc` and `c3desc`. -/
def c3key : String × String := ("India", "01012100")

/-- The spec example reference key (India, 2024, Jan, customs). -/
def c5key : CKey := ⟨"India", 2024, "Jan", "customs"⟩

/-- Reference (official) canonical table holding only the spec example
row, value 100. -/
def c5official : List (CKey × Rat) := [(c5key, 100)]

/-- A comparison row at the tolerance boundary: values differing by
exactly TOLERANCE. -/
def c4boundaryRow : CompRow := ⟨⟨"India", 2024, "Jan", "customs"⟩, 100, 101, .both⟩

/-- A comparison row just over the tolerance: values differing by
TOLERANCE plus 1/100. -/
def c4overRow : CompRow := ⟨⟨"India", 2024, "Feb", "customs"⟩, 100, (101 : Rat) + 1 / 100, .both⟩

/-- A comparison row with official value exactly 0. -/
def c6zeroRow : CompRow := ⟨⟨"India", 2024, "Jan", "customs"⟩, 0, 7, .right_only⟩

/-- A comparison row with nonzero official value 50 and candidate value
60 (a 20 percent difference). -/
def c6plainRow : CompRow := ⟨⟨"India", 2024, "Feb", "customs"⟩, 50, 60, .both⟩

/-- Table A of the comparator-symmetry witness. -/
def c8tableA : List (CKey × Rat) :=
  [(⟨"India", 2024, "Jan", "customs"⟩, 5), (⟨"Chile", 2024, "Jan", "customs"⟩, 1)]

/-- Table B of the comparator-symmetry witness. -/
def c8tableB : List (CKey × Rat) := [(⟨"India", 2024, "Jan", "customs"⟩, 9)]

/-- The comparison row of `compare_datasets c8tableA c8tableB` at the
shared key. -/
def c8row : CompRow := ⟨⟨"India", 2024, "Jan", "customs"⟩, 5, 9, .both⟩

/-- A sheet whose first rows never contain the anchor column name. -/
def c7sheet : RawSheet := ⟨[["Country", "Total"], ["Albania", "5"]]⟩

theorem take_one_eq_toList_head? {α : Type} (l : List α) : l.take 1 = l.head?.toList := by
  cases l <;> simp

theorem filter_take_one {α : Type} (l : List α) (p : α → Bool) :
    (l.filter p).take 1 = (l.find? p).toList := by
  induction l with
  | nil => rfl
  | cons a t ih => cases hpa : p a <;> simp [List.filter_cons, List.find?_cons, hpa, ih]

theorem filter_isEmpty_eq_find?_isNone {α : Type} (l : List α) (p : α → Bool) :
    (l.filter p).isEmpty = (l.find? p).isNone := by
  induction l with
  | nil => rfl
  | cons a t ih => cases hpa : p a <;> simp [List.filter_cons, List.find?_cons, hpa, ih]

theorem filter_isEmpty_eq_all_not {α : Type} (l : List α) (p : α → Bool) :
    (l.filter p).isEmpty = l.all (fun a => ! p a) := by
  induction l with
  | nil => rfl
  | cons a t ih => cases hpa : p a <;> simp [List.filter_cons, hpa, ih]

/-- Claim C4: a comparison row is in the discrepancy set exactly when its
absolute difference strictly exceeds the configured tolerance, so a
difference of exactly the tolerance is not flagged and any strictly larger
one is; and an empty discrepancy set makes the report the unconditional
success outcome. -/
theorem tolerance_boundary_strict (rows : List CompRow) (r : CompRow) :
    (r ∈ inconsistencies rows ↔ r ∈ rows ∧ TOLERANCE < absDifference r) ∧
    (inconsistencies rows = [] → generate_report rows = ReportOutcome.success) := by
  constructor
  · simp [inconsistencies, List.mem_filter, absDifference]
  · intro h
    simp [generate_report, h]

/-- Witness for claim C4 at concrete rows: the boundary row differs by
exactly the tolerance and is not flagged, the row differing by tolerance
plus 1/100 is flagged, and a discrepancy-free comparison reports success. -/
theorem tolerance_boundary_strict_witness :
    absDifference c4boundaryRow = TOLERANCE ∧
    c4boundaryRow ∉ inconsistencies [c4boundaryRow, c4overRow] ∧
    c4overRow ∈ inconsistencies [c4boundaryRow, c4overRow] ∧
    (c4boundaryRow ∈ inconsistencies [c4boundaryRow, c4overRow] ↔
      c4boundaryRow ∈ [c4boundaryRow, c4overRow] ∧ TOLERANCE < absDifference c4boundaryRow) ∧
    (inconsistencies [c4boundaryRow] = [] → generate_report [c4boundaryRow] = ReportOutcome.success) :=
  ⟨by decide, by decide, by decide,
    (tolerance_boundary_strict [c4boundaryRow, c4overRow] c4boundaryRow).1,
    (tolerance_boundary_strict [c4boundaryRow] c4boundaryRow).2⟩

/-- Claim C6: when the reference (Official) value of a comparison row is
exactly 0, Percent_Diff is the non-numeric NaN value (`none`) and no
division-by-zero failure occurs (the function is total); when the reference
value is nonzero, Percent_Diff equals Difference divided by the reference
value, times 100. -/
theorem percent_diff_zero_guard (r : CompRow) :
    (r.officialValue = 0 → percentDiff r = none) ∧
    (r.officialValue ≠ 0 → percentDiff r = some (difference r / r.officialValue * 100)) := by
  constructor <;> intro h <;> simp [percentDiff, replaceZeroWithNaN, nanDiv, nanMul, h]

/-- Witness for claim C6: the zero-reference row gets NaN, the row with
reference 50 and candidate 60 gets its exact percentage. -/
theorem percent_diff_zero_guard_witness :
    percentDiff c6zeroRow = none ∧
    percentDiff c6plainRow = some (difference c6plainRow / c6plainRow.officialValue * 100) :=
  ⟨(percent_diff_zero_guard c6zeroRow).1 rfl,
    (percent_diff_zero_guard c6plainRow).2 (by decide)⟩

theorem resolve_length_le_one (g : List QRow) :
    (resolve_quantity_conflicts g).length ≤ 1 := by
  unfold resolve_quantity_conflicts
  split
  · next h => omega
  · dsimp only
    repeat' split
    all_goals simp only [List.length_take]
    all_goals omega

/-- Claim C9: the quantity conflict resolver is idempotent — applied to its
own output it returns it unchanged, and a single-row group passes through
the resolver untouched. -/
theorem resolver_idempotent (g : List QRow) :
    resolve_quantity_conflicts (resolve_quantity_conflicts g) = resolve_quantity_conflicts g ∧
    (g.length = 1 → resolve_quantity_conflicts g = g) := by
  constructor
  · rcases hr : resolve_quantity_conflicts g with _ | ⟨r, _ | ⟨r2, t⟩⟩
    · rfl
    · simp [resolve_quantity_conflicts]
    · exfalso
      have h := resolve_length_le_one g
      rw [hr] at h
      simp at h
  · intro h
    simp [resolve_quantity_conflicts, h]

/-- Witness for claim C9 at a concrete single-row group. -/
theorem resolver_idempotent_witness :
    c9group.length = 1 ∧
    (resolve_quantity_conflicts (resolve_quantity_conflicts c9group) =
        resolve_quantity_conflicts c9group ∧
      (c9group.length = 1 → resolve_quantity_conflicts c9group = c9group)) :=
  ⟨by decide, resolver_idempotent c9group⟩

theorem filter_pos_isEmpty_eq_all (g : List QRow) :
    (g.filter (fun r => 0 < r.value)).isEmpty = g.all (fun r => ¬ 0 < r.value) := by
  rw [filter_isEmpty_eq_all_not]
  congr 1
  funext a
  simp only [decide_not]

theorem choice_take_eq_find (pool : List QRow) :
    (if ¬ (pool.filter (fun r => r.unit = "number")).isEmpty then
        (pool.filter (fun r => r.unit = "number")).take 1
      else if ¬ (pool.filter (fun r => r.unit = "kilograms")).isEmpty then
        (pool.filter (fun r => r.unit = "kilograms")).take 1
      else pool.take 1)
    = (unitPriorityPick pool).toList := by
  unfold unitPriorityPick
  rcases hfn : pool.find? (fun r => r.unit = "number") with _ | r
  · rcases hfk : pool.find? (fun r => r.unit = "kilograms") with _ | s
    · simp [filter_isEmpty_eq_find?_isNone, hfn, hfk, take_one_eq_toList_head?]
    · simp [filter_isEmpty_eq_find?_isNone, hfn, hfk, filter_take_one]
  · simp [filter_isEmpty_eq_find?_isNone, hfn, filter_take_one]

theorem resolve_eq_amendedChoice (g : List QRow) (hlen : g.length ≠ 1) :
    resolve_quantity_conflicts g = (amendedResolveChoice g).toList := by
  unfold resolve_quantity_conflicts amendedResolveChoice
  rw [if_neg hlen]
  dsimp only
  simp only [filter_pos_isEmpty_eq_all]
  exact choice_take_eq_find _

theorem amended_pool_ne_nil (g : List QRow) (hne : g ≠ []) :
    (if g.all (fun r => ¬ 0 < r.value) then g else g.filter (fun r => 0 < r.value)) ≠ [] := by
  split
  · exact hne
  · next hall =>
    intro hfil
    apply hall
    rw [List.all_eq_true]
    intro x hx
    rw [List.filter_eq_nil_iff] at hfil
    simpa using hfil x hx

theorem unitPriorityPick_isSome (pool : List QRow) (hne : pool ≠ []) :
    ∃ r, unitPriorityPick pool = some r := by
  unfold unitPriorityPick
  rcases hfn : pool.find? (fun r => r.unit = "number") with _ | r
  · rw [hfn]
    rcases hfk : pool.find? (fun r => r.unit = "kilograms") with _ | s
    · rw [hfk]
      rcases pool with _ | ⟨a, t⟩
      · exact absurd rfl hne
      · exact ⟨a, rfl⟩
    · rw [hfk]
      exact ⟨s, rfl⟩
  · rw [hfn]
    exact ⟨r, rfl⟩

/-- Counterexample to claim C1 as stated: in a conflict group holding a
negative-value "number" row and a positive "kilograms" row, the code's
candidate pool (`value > 0`) drops the negative row, so the "kilograms" row
is chosen; the claimed non-zero-value pool would keep the "number" row and
choose it. -/
theorem resolve_nonzero_pool_counterexample :
    1 < (unitsOf c1group).length ∧
    resolve_quantity_conflicts c1group = [⟨"Albania", "01012100", "kilograms", 3⟩] ∧
    specResolveQuantity c1group = [⟨"Albania", "01012100", "number", -5⟩] ∧
    resolve_quantity_conflicts c1group ≠ specResolveQuantity c1group := by
  decide

/-- Claim C1 as amended: for every group with at least two distinct
Unit-of-Measure values, the resolver emits exactly one row, chosen with the
candidate pool being the positive-value rows (the full group only when no
row value is positive), and within the pool the first "number" row, else the
first "kilograms" row, else the first row of the pool. -/
theorem resolve_pool_amended (g : List QRow) (h : 1 < (unitsOf g).length) :
    ∃ r, resolve_quantity_conflicts g = [r] ∧ amendedResolveChoice g = some r := by
  have hmapleq : (unitsOf g).length ≤ g.length := by
    simpa [unitsOf] using (List.dedup_sublist (g.map QRow.unit)).length_le
  have hlen2 : 1 < g.length := lt_of_lt_of_le h hmapleq
  have hne : g ≠ [] := by
    intro hg
    rw [hg] at hlen2
    simp at hlen2
  obtain ⟨r, hr⟩ : ∃ r, amendedResolveChoice g = some r := by
    unfold amendedResolveChoice
    dsimp only
    exact unitPriorityPick_isSome _ (amended_pool_ne_nil g hne)
  refine ⟨r, ?_, hr⟩
  rw [resolve_eq_amendedChoice g (by omega), hr]
  rfl

/-- Witness for amended claim C1 at the spec's own example group: the
non-zero "number" row wins over the zero "kilograms" row. -/
theorem resolve_pool_amended_witness :
    1 < (unitsOf c1exampleGroup).length ∧
    (∃ r, resolve_quantity_conflicts c1exampleGroup = [r] ∧
      amendedResolveChoice c1exampleGroup = some r) ∧
    resolve_quantity_conflicts c1exampleGroup = [⟨"Albania", "01012100", "number", 500⟩] :=
  ⟨by decide, resolve_pool_amended c1exampleGroup (by decide), by decide⟩

/-- Counterexample to claim C2 as stated: a batch whose distinct valid
months are a strict superset of the expected range (an extra 2024-04 next
to the expected 2024-01..2024-03) does not exactly cover the range, yet
validation raises no error, because the code only subtracts the found set
from the expected set and never checks the opposite direction. -/
theorem validate_exact_cover_counterexample :
    validate_monthly_files c2extraFiles "quantity 24-25 ascending" (2024, 1) (2024, 3) = none ∧
    (2024, 4) ∈ foundMonths c2extraFiles ∧
    (2024, 4) ∉ monthRange (2024, 1) (2024, 3) := by
  decide

/-- Claim C2 as amended: validation fails with a duplicate error when the
batch has fewer distinct valid months than files, fails with a missing
error naming every expected month that was not found when the count matches
but some expected month is absent, and succeeds when the count matches and
every expected month is present — extra months beyond the expected range
are not detected. (The caller catches the error, prints it and exits the
whole run before any merging, `04b_usitc_data_local.py` lines 262-266.) -/
theorem validate_months_amended (files : List FileMeta) (folder : String) (rs re : Nat × Nat) :
    ((foundMonths files).length ≠ files.length →
      validate_monthly_files files folder rs re =
        some (.duplicates folder files.length (foundMonths files).length)) ∧
    ((foundMonths files).length = files.length →
      ∀ ym ∈ monthRange rs re, ym ∉ foundMonths files →
        ∃ ms, validate_monthly_files files folder rs re = some (.missing folder ms) ∧ ym ∈ ms) ∧
    ((foundMonths files).length = files.length →
      (∀ ym ∈ monthRange rs re, ym ∈ foundMonths files) →
      validate_monthly_files files folder rs re = none) := by
  refine ⟨?_, ?_, ?_⟩
  · intro hdup
    unfold validate_monthly_files
    dsimp only
    rw [if_pos hdup]
  · intro hdup ym hym hnot
    refine ⟨(monthRange rs re).filter (fun x => ¬ x ∈ foundMonths files), ?_, ?_⟩
    · unfold validate_monthly_files
      dsimp only
      rw [if_neg (not_not_intro hdup)]
      have hmem : ym ∈ (monthRange rs re).filter (fun x => ¬ x ∈ foundMonths files) :=
        List.mem_filter.mpr ⟨hym, by simpa using hnot⟩
      have hne : (monthRange rs re).filter (fun x => ¬ x ∈ foundMonths files) ≠ [] := by
        intro hnil
        rw [hnil] at hmem
        exact absurd hmem (List.not_mem_nil ym)
      rw [if_neg (by simpa [List.isEmpty_iff] using hne)]
    · exact List.mem_filter.mpr ⟨hym, by simpa using hnot⟩
  · intro hdup hall
    unfold validate_monthly_files
    dsimp only
    rw [if_neg (not_not_intro hdup)]
    have hmiss : (monthRange rs re).filter (fun x => ¬ x ∈ foundMonths files) = [] :=
      List.filter_eq_nil_iff.mpr (fun a ha => by simpa using hall a ha)
    rw [hmiss]
    rfl

/-- Witness for amended claim C2 at the spec example: expected range
2024-01..2024-03 with a batch supplying only January and March raises the
missing-months error and names February 2024. -/
theorem validate_months_amended_witness :
    (foundMonths c2febFiles).length = c2febFiles.length ∧
    (2024, 2) ∈ monthRange (2024, 1) (2024, 3) ∧
    (2024, 2) ∉ foundMonths c2febFiles ∧
    (∃ ms, validate_monthly_files c2febFiles "quantity 24-25 ascending" (2024, 1) (2024, 3) =
        some (.missing "quantity 24-25 ascending" ms) ∧ (2024, 2) ∈ ms) :=
  ⟨by decide, by decide, by decide,
    (validate_months_amended c2febFiles "quantity 24-25 ascending" (2024, 1) (2024, 3)).2.1
      (by decide) (2024, 2) (by decide) (by decide)⟩

/-- Claim C7: when no cell of the scanned window (the first 10 rows) of a
sheet contains the anchor column name, the normalizer returns the empty
no-data table instead of raising; a read exception likewise yields the
empty table; and an empty table is excluded from every downstream merge by
the non-empty filter, so the run continues over the other files. -/
theorem anchor_missing_recovery (s : RawSheet) (e : String)
    (dfs : List (List (List String)))
    (h : ∀ row ∈ s.rows.take 10, ∀ c ∈ row, cellHasAnchor c = false) :
    process_single_file (Except.ok s) = [] ∧
    process_single_file (Except.error e) = [] ∧
    process_single_file (Except.ok s) ∉ keepNonEmpty dfs := by
  have hidx : header_row_index s = none := by
    unfold header_row_index
    rw [List.findIdx?_eq_none_iff]
    intro row hrow
    rw [List.any_eq_false]
    intro c hc
    simp [h row hrow c hc]
  have hps : process_single_file (Except.ok s) = [] := by
    simp [process_single_file, hidx]
  refine ⟨hps, rfl, ?_⟩
  rw [hps]
  unfold keepNonEmpty
  intro hmem
  have := (List.mem_filter.mp hmem).2
  simp at this

/-- Witness for claim C7 at a concrete anchor-free sheet. -/
theorem anchor_missing_recovery_witness :
    (∀ row ∈ c7sheet.rows.take 10, ∀ c ∈ row, cellHasAnchor c = false) ∧
    (process_single_file (Except.ok c7sheet) = [] ∧
      process_single_file (Except.error "read failure") = [] ∧
      process_single_file (Except.ok c7sheet) ∉ keepNonEmpty [[["Country"], ["Albania"]]]) :=
  ⟨by decide,
    anchor_missing_recovery c7sheet "read failure" [[["Country"], ["Albania"]]] (by decide)⟩

theorem resolve_subset (g : List QRow) (r : QRow)
    (hr : r ∈ resolve_quantity_conflicts g) : r ∈ g := by
  unfold resolve_quantity_conflicts at hr
  split at hr
  · exact hr
  · dsimp only at hr
    repeat' split at hr
    all_goals
      have hr2 := List.mem_of_mem_take hr
    all_goals simp only [List.mem_filter] at hr2
    all_goals tauto

/-- Claim C10: conflict detection counts distinct units, not rows — the
whole group of a key that is not a conflict key (at most one distinct unit)
passes through the quantity branch untouched, so a key with several
same-unit rows keeps all of them in the normalized monthly table. -/
theorem groupOf_append (a b : List QRow) (k : String × String) :
    groupOf (a ++ b) k = groupOf a k ++ groupOf b k := by
  unfold groupOf
  exact List.filter_append _ _

theorem same_unit_bypass (df : List QRow) (k : String × String)
    (h : isConflictKey df k = false) :
    groupOf (processQuantityRows df) k = groupOf df k := by
  unfold processQuantityRows
  dsimp only
  rw [groupOf_append]
  have hb : groupOf ((((df.map rowKey).dedup).filter (fun k2 => isConflictKey df k2)).flatMap
      (fun k2 => resolve_quantity_conflicts (groupOf df k2))) k = [] := by
    unfold groupOf
    rw [List.filter_eq_nil_iff]
    intro r hr
    rw [List.mem_flatMap] at hr
    obtain ⟨k2, hk2, hrk2⟩ := hr
    have hk2conf : isConflictKey df k2 = true := (List.mem_filter.mp hk2).2
    have hrg : r ∈ groupOf df k2 := resolve_subset _ _ hrk2
    unfold groupOf at hrg
    have hrkey : rowKey r = k2 := by simpa using (List.mem_filter.mp hrg).2
    simp only [decide_eq_true_eq]
    intro heq
    rw [← heq, hrkey] at h
    rw [h] at hk2conf
    exact Bool.false_ne_true hk2conf
  rw [hb, List.append_nil]
  unfold groupOf
  simp only [List.filter_filter]
  apply List.filter_congr
  intro a ha
  by_cases hak : rowKey a = k
  · have hconf : isConflictKey df (rowKey a) = false := by rw [hak]; exact h
    simp [hak, hconf, h]
  · simp [hak]

/-- Witness for claim C10 at a two-row same-unit group: the key is not a
conflict key, both rows survive the quantity branch, and the normalized
table holds two rows for that single entity key. -/
theorem same_unit_bypass_witness :
    isConflictKey c10df c10key = false ∧
    (groupOf c10df c10key).length = 2 ∧
    1 < (groupOf (processQuantityRows c10df) c10key).length ∧
    groupOf (processQuantityRows c10df) c10key = groupOf c10df c10key :=
  ⟨by decide, by decide, by decide, same_unit_bypass c10df c10key (by decide)⟩

theorem ratAbs_eq_abs (x : Rat) : ratAbs x = |x| := by
  unfold ratAbs
  split_ifs with h
  · exact (abs_of_neg h).symm
  · exact (abs_of_nonneg (not_lt.mp h)).symm

theorem ratAbs_neg (x : Rat) : ratAbs (-x) = ratAbs x := by
  rw [ratAbs_eq_abs, ratAbs_eq_abs, abs_neg]

theorem lookupValue_some_mem (tbl : List (CKey × Rat)) (k : CKey) (v : Rat)
    (h : lookupValue tbl k = some v) : k ∈ tbl.map Prod.fst := by
  unfold lookupValue at h
  rcases hf : tbl.find? (fun p => p.1 = k) with _ | q
  · rw [hf] at h
    simp at h
  · have hq := List.find?_some hf
    have hqm := List.mem_of_find?_eq_some hf
    rw [List.mem_map]
    exact ⟨q, hqm, by simpa using hq⟩

theorem lookupValue_none_not_mem (tbl : List (CKey × Rat)) (k : CKey)
    (h : lookupValue tbl k = none) : k ∉ tbl.map Prod.fst := by
  unfold lookupValue at h
  rcases hf : tbl.find? (fun p => p.1 = k) with _ | q
  · rw [List.find?_eq_none] at hf
    rw [List.mem_map]
    rintro ⟨p, hp, hpk⟩
    exact absurd (by simpa using hpk) (by simpa using hf p hp)
  · rw [hf] at h
    simp at h

theorem compareRow_key (official your : List (CKey × Rat)) (k : CKey) (r : CompRow)
    (h : compareRow official your k = some r) : r.key = k := by
  unfold compareRow at h
  rcases ho : lookupValue official k with _ | o <;>
    rcases hy : lookupValue your k with _ | y <;>
    rw [ho, hy] at h
  · simp at h
  · rw [← Option.some.inj h]
  · rw [← Option.some.inj h]
  · rw [← Option.some.inj h]

theorem countP_filterMap_keyed (keys : List CKey) (k : CKey) (f : CKey → Option CompRow)
    (hnd : keys.Nodup) (hk : k ∈ keys)
    (hf : ∀ k2 r, f k2 = some r → r.key = k2) (hs : (f k).isSome) :
    (keys.filterMap f).countP (fun r => r.key = k) = 1 := by
  induction keys with
  | nil => simp at hk
  | cons a t ih =>
    rw [List.nodup_cons] at hnd
    cases List.mem_cons.mp hk with
    | inl heq =>
      subst heq
      rcases hfa : f k with _ | r
      · rw [hfa] at hs
        simp at hs
      · rw [List.filterMap_cons, hfa]
        have hzero : (t.filterMap f).countP (fun x => x.key = k) = 0 := by
          rw [List.countP_eq_zero]
          intro b hb
          rw [List.mem_filterMap] at hb
          obtain ⟨k2, hk2t, hfk2⟩ := hb
          have hbk := hf k2 b hfk2
          have hne : k2 ≠ k := fun he => hnd.1 (he ▸ hk2t)
          simp [hbk, hne]
        simp [List.countP_cons, hf k r hfa, hzero]
    | inr hkt =>
      have hne : a ≠ k := fun he => hnd.1 (he ▸ hkt)
      rcases hfa : f a with _ | r
      · rw [List.filterMap_cons, hfa]
        exact ih hnd.2 hkt
      · rw [List.filterMap_cons, hfa]
        have hr := hf a r hfa
        simp [List.countP_cons, hr, hne, ih hnd.2 hkt]

/-- Claim C5: for a canonical key present only in the reference (official)
table, the comparator emits exactly one row for that key, tagged left_only
by join membership alone, with Your_Value defaulted to 0, Difference equal
to minus the reference value and Abs_Difference equal to its absolute
value. -/
theorem reference_only_row (official your : List (CKey × Rat)) (k : CKey) (v : Rat)
    (h1 : lookupValue official k = some v) (h2 : lookupValue your k = none) :
    ((compare_datasets official your).countP (fun r => r.key = k) = 1) ∧
    (∀ r ∈ compare_datasets official your, r.key = k →
      r.tag = MergeTag.left_only ∧ r.yourValue = 0 ∧ r.officialValue = v ∧
      difference r = -v ∧ absDifference r = ratAbs v) := by
  have hrow : compareRow official your k = some ⟨k, v, 0, MergeTag.left_only⟩ := by
    unfold compareRow
    rw [h1, h2]
  constructor
  · unfold compare_datasets
    refine countP_filterMap_keyed _ k _ (List.nodup_dedup _) ?_
      (fun k2 r h => compareRow_key official your k2 r h) (by rw [hrow]; rfl)
    rw [List.mem_dedup, List.mem_append]
    exact Or.inl (lookupValue_some_mem official k v h1)
  · intro r hr hrk
    unfold compare_datasets at hr
    rw [List.mem_filterMap] at hr
    obtain ⟨k2, hk2, hck2⟩ := hr
    have hk2eq : k2 = k := by rw [← hrk, compareRow_key official your k2 r hck2]
    subst hk2eq
    rw [hrow] at hck2
    rw [← Option.some.inj hck2]
    refine ⟨rfl, rfl, rfl, ?_, ?_⟩
    · show (0 : Rat) - v = -v
      exact zero_sub v
    · show ratAbs ((0 : Rat) - v) = ratAbs v
      rw [zero_sub, ratAbs_neg]

/-- Witness for claim C5 at the spec example: reference row
(India, 2024, Jan, customs) = 100 with an empty candidate table gives one
left-only row with Difference -100 and Abs_Difference 100. -/
theorem reference_only_row_witness :
    lookupValue c5official c5key = some 100 ∧
    lookupValue ([] : List (CKey × Rat)) c5key = none ∧
    compare_datasets c5official [] = [⟨c5key, 100, 0, MergeTag.left_only⟩] ∧
    (((compare_datasets c5official []).countP (fun r => r.key = c5key) = 1) ∧
      (∀ r ∈ compare_datasets c5official [], r.key = c5key →
        r.tag = MergeTag.left_only ∧ r.yourValue = 0 ∧ r.officialValue = 100 ∧
        difference r = -100 ∧ absDifference r = ratAbs 100)) :=
  ⟨by decide, by decide, by decide,
    reference_only_row c5official [] c5key 100 (by decide) (by decide)⟩

/-- Claim C8: swapping reference and candidate gives, for the row of each
key, the negated Difference, the same Abs_Difference, and the one-sided
provenance tags swapped (both stays both). -/
theorem comparator_symmetry (A B : List (CKey × Rat)) (r : CompRow)
    (h : r ∈ compare_datasets A B) :
    ∃ s ∈ compare_datasets B A, s.key = r.key ∧ difference s = -difference r ∧
      absDifference s = absDifference r ∧ s.tag = swapTag r.tag := by
  have hr0 : ∃ k2 ∈ (A.map Prod.fst ++ B.map Prod.fst).dedup, compareRow A B k2 = some r := by
    unfold compare_datasets at h
    exact List.mem_filterMap.mp h
  obtain ⟨k2, hk2, hck⟩ := hr0
  have hkey : r.key = k2 := compareRow_key A B k2 r hck
  subst hkey
  rw [List.mem_dedup, List.mem_append] at hk2
  unfold compareRow at hck
  rcases ha : lookupValue A r.key with _ | o <;>
    rcases hb : lookupValue B r.key with _ | y <;> rw [ha, hb] at hck
  · exact absurd hck (by simp)
  · have hr := Option.some.inj hck
    have hBmem : r.key ∈ B.map Prod.fst := by
      rcases hk2 with hA | hB
      · exact absurd hA (lookupValue_none_not_mem A r.key ha)
      · exact hB
    refine ⟨⟨r.key, y, 0, MergeTag.left_only⟩, ?_, rfl, ?_, ?_, ?_⟩
    · unfold compare_datasets
      rw [List.mem_filterMap]
      refine ⟨r.key, ?_, ?_⟩
      · rw [List.mem_dedup, List.mem_append]
        exact Or.inl hBmem
      · unfold compareRow
        rw [hb, ha]
    · rw [← hr]
      show (0 : Rat) - y = -(y - 0)
      ring
    · rw [← hr]
      show ratAbs ((0 : Rat) - y) = ratAbs (y - 0)
      rw [ratAbs_eq_abs, ratAbs_eq_abs, abs_sub_comm]
    · rw [← hr]
      rfl
  · have hr := Option.some.inj hck
    have hAmem : r.key ∈ A.map Prod.fst := by
      rcases hk2 with hA | hB
      · exact hA
      · exact absurd hB (lookupValue_none_not_mem B r.key hb)
    refine ⟨⟨r.key, 0, o, MergeTag.right_only⟩, ?_, rfl, ?_, ?_, ?_⟩
    · unfold compare_datasets
      rw [List.mem_filterMap]
      refine ⟨r.key, ?_, ?_⟩
      · rw [List.mem_dedup, List.mem_append]
        exact Or.inr hAmem
      · unfold compareRow
        rw [hb, ha]
    · rw [← hr]
      show (o : Rat) - 0 = -((0 : Rat) - o)
      ring
    · rw [← hr]
      show ratAbs ((o : Rat) - 0) = ratAbs ((0 : Rat) - o)
      rw [ratAbs_eq_abs, ratAbs_eq_abs, abs_sub_comm]
    · rw [← hr]
      rfl
  · have hr := Option.some.inj hck
    have hAmem : r.key ∈ A.map Prod.fst := lookupValue_some_mem A r.key o ha
    refine ⟨⟨r.key, y, o, MergeTag.both⟩, ?_, rfl, ?_, ?_, ?_⟩
    · unfold compare_datasets
      rw [List.mem_filterMap]
      refine ⟨r.key, ?_, ?_⟩
      · rw [List.mem_dedup, List.mem_append]
        exact Or.inr hAmem
      · unfold compareRow
        rw [hb, ha]
    · rw [← hr]
      show (o : Rat) - y = -(y - o)
      ring
    · rw [← hr]
      show ratAbs ((o : Rat) - y) = ratAbs (y - o)
      rw [ratAbs_eq_abs, ratAbs_eq_abs, abs_sub_comm]
    · rw [← hr]
      rfl

/-- Witness for claim C8 at concrete tables sharing one key: the shared-key
row of the swapped comparison negates Difference, keeps Abs_Difference and
keeps the both tag. -/
theorem comparator_symmetry_witness :
    c8row ∈ compare_datasets c8tableA c8tableB ∧
    (∃ s ∈ compare_datasets c8tableB c8tableA, s.key = c8row.key ∧
      difference s = -difference c8row ∧ absDifference s = absDifference c8row ∧
      s.tag = swapTag c8row.tag) :=
  ⟨by decide, comparator_symmetry c8tableA c8tableB c8row (by decide)⟩

theorem isFirstSome_head?_filterMap (l : List (Option Rat)) :
    IsFirstSome l (l.filterMap id).head? := by
  induction l with
  | nil =>
    show ∀ x ∈ ([] : List (Option Rat)), x = none
    intro x hx
    simp at hx
  | cons a t ih =>
    cases a with
    | some v =>
      have hh : ((some v :: t).filterMap id).head? = some v := by simp
      rw [hh]
      exact ⟨0, by simp, fun m hm => absurd hm (Nat.not_lt_zero m)⟩
    | none =>
      have hh : ((none :: t).filterMap id).head? = (t.filterMap id).head? := by simp
      rw [hh]
      rcases hcase : (t.filterMap id).head? with _ | v
      · rw [hcase] at ih
        show ∀ x ∈ none :: t, x = none
        intro x hx
        rcases List.mem_cons.mp hx with h1 | h1
        · exact h1
        · exact ih x h1
      · rw [hcase] at ih
        obtain ⟨n, hn, hm⟩ := ih
        refine ⟨n + 1, by simpa using hn, ?_⟩
        intro m hm2
        cases m with
        | zero => simp
        | succ m2 =>
          rw [List.getElem?_cons_succ]
          exact hm m2 (Nat.lt_of_succ_lt_succ hm2)

theorem countP_eq_one_of_nodup_mem {α : Type} [DecidableEq α] (l : List α) (a : α)
    (hnd : l.Nodup) (ha : a ∈ l) : l.countP (fun x => x = a) = 1 := by
  induction l with
  | nil => simp at ha
  | cons b t ih =>
    rw [List.nodup_cons] at hnd
    rcases List.mem_cons.mp ha with heq | hat
    · subst heq
      rw [List.countP_cons]
      have hzero : t.countP (fun x => x = a) = 0 := by
        rw [List.countP_eq_zero]
        intro x hx
        simp only [decide_eq_true_eq]
        exact fun he => hnd.1 (he ▸ hx)
      simp [hzero]
    · have hne : b ≠ a := fun he => hnd.1 (he ▸ hat)
      rw [List.countP_cons]
      simp [hne, ih hnd.2 hat]

/-- Counterexample to claim C3 as stated: with the ascending row of the key
missing its first cell and the descending row carrying both cells, the
consolidated row is not the ascending batch's entire row — pandas
`GroupBy.first` takes the first non-NA value per column, so the missing
first cell is filled from the descending row. -/
theorem consolidate_first_row_counterexample :
    consolidateTable (c3asc ++ c3desc) 2 = [⟨"India", "01012100", [some 5, some 1]⟩] ∧
    c3asc = [⟨"India", "01012100", [none, some 1]⟩] ∧
    consolidateTable (c3asc ++ c3desc) 2 ≠ c3asc := by
  decide

/-- Claim C3 as amended: for a key present in the stacked batches (ascending
rows before descending rows), the consolidated table holds exactly one row
for that key, and each of its cells is the first non-missing value of that
column over the group in batch order — missing only when the whole column of
the group is missing — rather than the ascending row's cell verbatim. -/
theorem consolidate_first_nonnull (asc desc : List WideRow) (ncols : Nat)
    (k : String × String) (i : Nat)
    (hk : k ∈ (asc ++ desc).map wideKey) (hi : i < ncols) :
    ((consolidateTable (asc ++ desc) ncols).countP (fun r => wideKey r = k) = 1) ∧
    columnOf (asc ++ desc) k i = columnOf asc k i ++ columnOf desc k i ∧
    (∀ r ∈ consolidateTable (asc ++ desc) ncols, wideKey r = k →
      r.cells.getD i none = consolidatedCell (asc ++ desc) k i) ∧
    IsFirstSome (columnOf (asc ++ desc) k i) (consolidatedCell (asc ++ desc) k i) := by
  refine ⟨?_, ?_, ?_, ?_⟩
  · unfold consolidateTable
    rw [List.countP_map]
    have hone := countP_eq_one_of_nodup_mem (((asc ++ desc).map wideKey).dedup) k
      (List.nodup_dedup _) (List.mem_dedup.mpr hk)
    rw [← hone]
    apply List.countP_congr
    intro a ha
    simp [wideKey, Function.comp]
  · unfold columnOf wideGroup
    rw [List.filter_append, List.map_append]
  · intro r hr hrk
    unfold consolidateTable at hr
    rw [List.mem_map] at hr
    obtain ⟨k2, hk2, hrow⟩ := hr
    have hk2k : k2 = k := by
      rw [← hrk, ← hrow]
      rfl
    subst hk2k
    rw [← hrow]
    dsimp only
    rw [List.getD_eq_getElem?_getD, List.getElem?_map, List.getElem?_range hi]
    rfl
  · unfold consolidatedCell firstNonNull
    exact isFirstSome_head?_filterMap _

/-- Witness for amended claim C3 at the counterexample tables: the single
consolidated row for the key takes cell 0 from the descending row (first
non-missing) and cell 1 from the ascending row. -/
theorem consolidate_first_nonnull_witness :
    consolidatedCell (c3asc ++ c3desc) c3key 0 = some 5 ∧
    consolidatedCell (c3asc ++ c3desc) c3key 1 = some 1 ∧
    (((consolidateTable (c3asc ++ c3desc) 2).countP (fun r => wideKey r = c3key) = 1) ∧
      columnOf (c3asc ++ c3desc) c3key 0 = columnOf c3asc c3key 0 ++ columnOf c3desc c3key 0 ∧
      (∀ r ∈ consolidateTable (c3asc ++ c3desc) 2, wideKey r = c3key →
        r.cells.getD 0 none = consolidatedCell (c3asc ++ c3desc) c3key 0) ∧
      IsFirstSome (columnOf (c3asc ++ c3desc) c3key 0)
        (consolidatedCell (c3asc ++ c3desc) c3key 0)) :=
  ⟨by decide, by decide,
    consolidate_first_nonnull c3asc c3desc 2 c3key 0 (by decide) (by decide)⟩
